import Mathlib

/-
Verification of the dbbasic-object-primitive distributed runtime.

This file shallowly embeds the parts of the Python code base that the
claims concern and proves (or refutes) each claim over the embedding:

  * api/cluster/replicate.py        - POST /cluster/replicate (LWW state ingress)
  * api/cluster/append_log.py       - POST /cluster/append_log (dedup log ingress)
  * api/cluster/stations.py         - GET /cluster/stations (registry listing)
  * api/objects/[id].py             - load-score routing and the rollback action
  * .../core/version_manager.py     - VersionManager (save, get, rollback)
  * .../runtime/object_runtime.py   - StateManager and the scheduler loop
  * .../core/self_logger.py         - SelfLogger.log and rotation

Conventions of the embedding:
  * Python floats (timestamps, load percentages) are modelled as rationals;
    the code only ever compares and adds them.
  * A TSV state file is represented by its list of (key, value, timestamp)
    rows.  Python serialises dictionaries sorted by key; the sort only
    permutes rows and no claim mentions row order, so association lists in
    update order stand for the files.
  * Fallible handlers return an explicit result datatype mirroring the JSON
    and HTTP status the Python endpoint produces.
-/

/-! ## State replication ingress: api/cluster/replicate.py -/

/-- Rows of a state.tsv file / the dict parsed from it: key, value, timestamp. -/
abbrev StateDict := List (String × String × ℚ)

/-- Lookup of a key in the parsed state dictionary (first binding wins; the
dictionary parsed from a file has unique keys). -/
def lookupState : StateDict → String → Option (String × ℚ)
  | [], _ => none
  | (k, v, t) :: rest, key => if k = key then some (v, t) else lookupState rest key

/-- Replace the binding of a key, or append it when absent: the effect of
`existing[key] = (value, timestamp)` on a Python dict. -/
def dictSet : StateDict → String → String × ℚ → StateDict
  | [], key, vt => [(key, vt.1, vt.2)]
  | (k, v, t) :: rest, key, vt =>
    if k = key then (key, vt.1, vt.2) :: rest else (k, v, t) :: dictSet rest key vt

/-- JSON body of POST /cluster/replicate; `none` marks an absent field. -/
structure ReplicateRequest where
  object_id : Option String
  key : Option String
  value : Option String
  timestamp : Option ℚ
  source_station : Option String
deriving DecidableEq

/-- Python truthiness of an optional string: present and non-empty. -/
def truthyStr (o : Option String) : Bool :=
  match o with
  | none => false
  | some s => s ≠ ""

/-- Python truthiness of an optional number: present and non-zero. -/
def truthyNum (o : Option ℚ) : Bool :=
  match o with
  | none => false
  | some q => q ≠ 0

/-- The field check of replicate.py line 50:
`all([object_id, key, value is not None, timestamp, source_station])`.
Every field but `value` is tested by truthiness; `value` only for presence. -/
def replicateFieldsOk (r : ReplicateRequest) : Bool :=
  truthyStr r.object_id && truthyStr r.key && r.value.isSome &&
    truthyNum r.timestamp && truthyStr r.source_station

/-- Outcome of POST /cluster/replicate, mirroring the JSON responses. -/
inductive ReplicateResult where
  | missingFields
  | okRejected (object_id key : String)
  | okReplicated (object_id key : String) (timestamp : ℚ)
deriving DecidableEq

/-- HTTP status code of a replicate response (json_error uses 400). -/
def ReplicateResult.httpStatus : ReplicateResult → Nat
  | .missingFields => 400
  | .okRejected _ _ => 200
  | .okReplicated _ _ _ => 200

/-- JSON `status` field of a replicate response. -/
def ReplicateResult.statusField : ReplicateResult → String
  | .missingFields => "error"
  | .okRejected _ _ => "ok"
  | .okReplicated _ _ _ => "ok"

/-- JSON `rejected` flag of a replicate response (absent is false). -/
def ReplicateResult.rejectedFlag : ReplicateResult → Bool
  | .okRejected _ _ => true
  | _ => false

/-- POST /cluster/replicate over the parsed state of the target object:
validate fields, then last-write-wins on the addressed key.  Timestamps
less than or equal to the stored one are rejected with `status=ok`. -/
def replicatePOST (store : StateDict) (r : ReplicateRequest) :
    StateDict × ReplicateResult :=
  if !replicateFieldsOk r then (store, .missingFields)
  else
    let object_id := r.object_id.getD ""
    let key := r.key.getD ""
    let value := r.value.getD ""
    let timestamp := r.timestamp.getD 0
    match lookupState store key with
    | some (_, existing_ts) =>
      if timestamp ≤ existing_ts then (store, .okRejected object_id key)
      else (dictSet store key (value, timestamp), .okReplicated object_id key timestamp)
    | none => (dictSet store key (value, timestamp), .okReplicated object_id key timestamp)

/-! ## StateManager: runtime/object_runtime.py -/

/-- In-memory `_state` of a StateManager: key to value bindings. -/
abbrev MemState := List (String × String)

/-- Dict update on the in-memory state. -/
def memSet : MemState → String → String → MemState
  | [], key, v => [(key, v)]
  | (k, w) :: rest, key, v =>
    if k = key then (key, v) :: rest else (k, w) :: memSet rest key v

/-- Lookup in the in-memory state. -/
def memGet : MemState → String → Option String
  | [], _ => none
  | (k, w) :: rest, key => if k = key then some w else memGet rest key

/-- StateManager._save_state_with_timestamp: rewrite the whole file, one
line per key, every line carrying the one timestamp passed in. -/
def saveStateWithTimestamp (state : MemState) (timestamp : ℚ) : StateDict :=
  state.map (fun kv => (kv.1, kv.2, timestamp))

/-- StateManager._load_state: parse the file back to key/value bindings;
the per-line timestamps are dropped (the runtime keeps none in memory). -/
def loadState (file : StateDict) : MemState :=
  file.map (fun row => (row.1, row.2.1))

/-- StateManager.set: update the in-memory dict, then persist every key
with `timestamp = now`.  Returns the new memory state and the file written. -/
def stateManagerSet (state : MemState) (key value : String) (now : ℚ) :
    MemState × StateDict :=
  let state2 := memSet state key value
  (state2, saveStateWithTimestamp state2 now)

/-! ## VersionManager: core/version_manager.py

A metadata row also records a wall-clock timestamp and a SHA-256 hash of
the content; neither is ever read back by save_version, get_version,
rollback or _get_next_version_id, so the embedding carries the fields the
operations consult: version_id, the stored content file, author, message. -/

/-- One saved version: metadata row plus its content file vN.txt. -/
structure VersionRow where
  version_id : Nat
  content : String
  author : String
  message : String
deriving DecidableEq

/-- Metadata rows of one object, in file (append) order. -/
abbrev VersionLog := List VersionRow

/-- The version_id column of the metadata file. -/
def versionIds (rows : VersionLog) : List Nat :=
  rows.map (fun r => r.version_id)

/-- Maximum of a list of naturals (Python max over a list of positive ids;
folding from 0 agrees since ids are naturals). -/
def listMax (l : List Nat) : Nat :=
  l.foldl Nat.max 0

/-- VersionManager._get_next_version_id: 1 when no versions exist, else
the maximum recorded version_id plus 1. -/
def nextVersionId (rows : VersionLog) : Nat :=
  match rows with
  | [] => 1
  | _ => listMax (versionIds rows) + 1

/-- VersionManager.save_version: append a row under the next version id;
returns the new metadata and the id handed back to the caller. -/
def saveVersion (rows : VersionLog) (content author message : String) :
    VersionLog × Nat :=
  let version_id := nextVersionId rows
  (rows ++ [⟨version_id, content, author, message⟩], version_id)

/-- VersionManager.get_version: none when no versions exist; latest row
for `none`, else the first row whose version_id matches.  (The content
file of a recorded row always exists in the embedding, as save_version
writes it.) -/
def getVersion (rows : VersionLog) (version_id : Option Nat) : Option VersionRow :=
  match rows with
  | [] => none
  | _ =>
    match version_id with
    | none => rows.getLast?
    | some v => rows.find? (fun r => r.version_id == v)

/-- VersionManager.rollback: resolve the target version, then save its
content as a new version; VersionNotFoundError when the target is absent. -/
def vmRollback (rows : VersionLog) (to_version : Nat) (author message : String) :
    Except String (VersionLog × Nat) :=
  match getVersion rows (some to_version) with
  | none => .error "VersionNotFound"
  | some old => .ok (saveVersion rows old.content author message)

/-- HTTP reply of the rollback action in api/objects/[id].py. -/
inductive RollbackReply where
  | ok (status : String) (version_id : Nat)
  | err (httpStatus : Nat) (message : String)
deriving DecidableEq

/-- POST /objects/{id} with action=rollback: a falsy version_id is a 400;
otherwise rollback_to_version runs (its returned new id is discarded) and
the response echoes the REQUESTED version_id.  Exceptions become a 500. -/
def rollbackPOST (rows : VersionLog) (version_id : Option Nat)
    (author message : Option String) : VersionLog × RollbackReply :=
  match version_id with
  | none => (rows, .err 400 "version_id required for rollback")
  | some vid =>
    if vid = 0 then (rows, .err 400 "version_id required for rollback")
    else
      let a := author.getD "api_user"
      let m := message.getD ("Rollback to version " ++ toString vid)
      match vmRollback rows vid a m with
      | .error e => (rows, .err 500 ("Rollback failed: " ++ e))
      | .ok (rows2, _new_version_id) => (rows2, .ok "ok" vid)

/-- Metadata after n successive save_version calls starting from an empty
object; contents come from the supplied stream. -/
def iterSave (contents : Nat → String) (author message : String) : Nat → VersionLog
  | 0 => []
  | n + 1 => (saveVersion (iterSave contents author message n)
      (contents n) author message).1

/-! ## Log replication ingress: api/cluster/append_log.py -/

/-- One row of a replicated log.tsv: the value of its entry_id column and
the fields of the log_entry dict it was built from, as field/value pairs. -/
structure ReplLogRow where
  entry_id : String
  payload : List (String × String)
deriving DecidableEq

/-- The _has_entry scan: does any row of the file carry this entry_id. -/
def hasEntry (log : List ReplLogRow) (entry_id : String) : Bool :=
  log.any (fun row => row.entry_id == entry_id)

/-- The entry_id column actually stored by _append_log_entry: the row is
built as the dict merge of the top-level entry_id with the log_entry
fields, the log_entry unpacked second — so a log_entry that carries its
own entry_id key overrides the top-level one. -/
def storedEntryId (entry_id : String) (log_entry : List (String × String)) : String :=
  match log_entry.lookup "entry_id" with
  | some v => v
  | none => entry_id

/-- Outcome of POST /cluster/append_log. -/
inductive AppendResult where
  | missingFields
  | duplicate (object_id entry_id : String)
  | appended (object_id entry_id : String)
deriving DecidableEq

/-- JSON `status` field of an append_log response. -/
def AppendResult.statusField : AppendResult → String
  | .missingFields => "error"
  | .duplicate _ _ => "duplicate"
  | .appended _ _ => "ok"

/-- POST /cluster/append_log over the target object log: validate the
four fields by truthiness (log_entry is truthy when the dict is
non-empty), scan for the TOP-LEVEL entry_id, else append the row whose
entry_id column is the merged one (storedEntryId): an entry_id key
inside log_entry wins over the top-level field in the written row, while
the dedup scan still searches for the top-level value. -/
def appendLogPOST (log : List ReplLogRow)
    (object_id entry_id : Option String)
    (log_entry : Option (List (String × String)))
    (source_station : Option String) :
    List ReplLogRow × AppendResult :=
  if !(truthyStr object_id && truthyStr entry_id &&
        (match log_entry with | none => false | some d => !d.isEmpty) &&
        truthyStr source_station) then
    (log, .missingFields)
  else
    let oid := object_id.getD ""
    let eid := entry_id.getD ""
    if hasEntry log eid then (log, .duplicate oid eid)
    else (log ++ [⟨storedEntryId eid (log_entry.getD []), log_entry.getD []⟩],
      .appended oid eid)

/-! ## Station registry listing: api/cluster/stations.py -/

/-- Heartbeat metrics as carried in the registry; a field can be absent
from the metrics dict. -/
structure Metrics where
  cpu_percent : Option ℚ
  memory_percent : Option ℚ
deriving DecidableEq

/-- One parsed row of data/cluster/stations.tsv; `metrics = none` stands
for an absent or empty metrics column. -/
structure RegistryRow where
  station_id : String
  host : String
  port : Nat
  last_heartbeat : ℚ
  metrics : Option Metrics
deriving DecidableEq

/-- One entry of the stations array returned by GET /cluster/stations. -/
structure StationEntry where
  station_id : String
  host : String
  port : Nat
  last_heartbeat : ℚ
  is_active : Bool
  url : String
  metrics : Option Metrics
deriving DecidableEq

/-- Liveness window of the registry: a heartbeat within the last 30 s. -/
def livenessWindow : ℚ := 30

/-- Enrichment of one registry row for the stations listing:
is_active = (now - last_heartbeat) < 30 and a convenience url. -/
def entryOfRow (now : ℚ) (r : RegistryRow) : StationEntry :=
  { station_id := r.station_id
    host := r.host
    port := r.port
    last_heartbeat := r.last_heartbeat
    is_active := decide (now - r.last_heartbeat < livenessWindow)
    url := "http://" ++ r.host ++ ":" ++ toString r.port
    metrics := r.metrics }

/-- The self entry stations.py inserts for the master at list head. -/
def masterSelfEntry (now : ℚ) : StationEntry :=
  { station_id := "station1"
    host := "localhost"
    port := 8001
    last_heartbeat := now
    is_active := true
    url := "http://localhost:8001"
    metrics := none }

/-- GET /cluster/stations: enrich every registry row; when running as
station1 and no row carries that id, insert the self entry at the head. -/
def stationsGET (station_id : String) (registry : List RegistryRow) (now : ℚ) :
    List StationEntry :=
  let stations := registry.map (entryOfRow now)
  if station_id = "station1" &&
      !(stations.any (fun s => s.station_id == station_id)) then
    masterSelfEntry now :: stations
  else stations

/-! ## Load-based routing: api/objects/[id].py -/

/-- A station as find_best_station consults it: its id and the metrics of
its last heartbeat (`none` stands for a missing or empty metrics dict). -/
structure Station where
  station_id : String
  metrics : Option Metrics
deriving DecidableEq

/-- calculate_load_score: 50 for an empty metrics dict, else the weighted
average 0.6 * cpu_percent + 0.4 * memory_percent with each missing field
defaulting to 50. -/
def calculateLoadScore (metrics : Option Metrics) : ℚ :=
  match metrics with
  | none => 50
  | some m => m.cpu_percent.getD 50 * (6 / 10) + m.memory_percent.getD 50 * (4 / 10)

/-- Load score of a station from the active list. -/
def stationScore (s : Station) : ℚ :=
  calculateLoadScore s.metrics

/-- One step of the best-station scan: starting from best_score infinity,
keep the station whose score is strictly below the best so far. -/
def bestStep (acc : Option (Station × ℚ)) (s : Station) : Option (Station × ℚ) :=
  let score := stationScore s
  match acc with
  | none => some (s, score)
  | some (b, best_score) =>
    if score < best_score then some (s, score) else some (b, best_score)

/-- The non-local stations of the active list (the loop in the source
skips the local station inline; filtering first visits the same stations
in the same order). -/
def remoteStations (local_station : String) (stations : List Station) : List Station :=
  stations.filter (fun s => s.station_id != local_station)

/-- The minimum-score scan of find_best_station over the non-local
stations, together with the winning score. -/
def findMinRemote (local_station : String) (stations : List Station) :
    Option (Station × ℚ) :=
  (remoteStations local_station stations).foldl bestStep none

/-- The local load score: metrics of the first listed station carrying the
local id, an empty dict (hence score 50) when none is listed. -/
def localLoadScore (local_station : String) (stations : List Station) : ℚ :=
  calculateLoadScore
    ((stations.find? (fun s => s.station_id == local_station)).bind Station.metrics)

/-- find_best_station: none when at most one station is listed; else the
minimum-score non-local station, but only when it beats the local score by
more than 20 points or the local score exceeds 70. -/
def findBestStation (local_station : String) (stations : List Station) :
    Option Station :=
  if stations.length ≤ 1 then none
  else
    match findMinRemote local_station stations with
    | none => none
    | some (best, best_score) =>
      let local_score := localLoadScore local_station stations
      if local_score - best_score > 20 ∨ local_score > 70 then some best
      else none

/-! ## The in-process scheduler loop: runtime/object_runtime.py -/

/-- One registered periodic schedule of an object. -/
structure Sched where
  method : String
  interval : ℚ
  next_run : ℚ
deriving DecidableEq

/-- What invoking `method` on the loaded object does, as the sweep sees
it: the object or method can be missing, the call can return or raise. -/
inductive HandlerOutcome where
  | missing
  | ok
  | raises (message : String)

/-- A line the scheduler would emit through the object logger; the sweep
returns the list of lines actually emitted. -/
structure LogMsg where
  object_id : String
  level : String
  message : String
deriving DecidableEq

/-- One due-check of the scheduler loop for a single schedule: when due,
run the method inside try/except.  A normal return advances next_run by
the interval; a missing object or method does nothing; an exception is
caught by `except Exception: pass` — next_run stays put and NO log line
is emitted. -/
def runSchedEntry (behavior : String → String → HandlerOutcome)
    (object_id : String) (now : ℚ) (s : Sched) : Sched × List LogMsg :=
  if s.next_run ≤ now then
    match behavior object_id s.method with
    | .missing => (s, [])
    | .ok => ({ s with next_run := now + s.interval }, [])
    | .raises _ => (s, [])
  else (s, [])

/-- One 1 Hz sweep of _scheduler_loop over every object and schedule;
returns the updated schedule table and all emitted log lines. -/
def schedulerSweep (behavior : String → String → HandlerOutcome)
    (schedules : List (String × List Sched)) (now : ℚ) :
    List (String × List Sched) × List LogMsg :=
  let stepped := schedules.map (fun os =>
    let results := os.2.map (runSchedEntry behavior os.1 now)
    ((os.1, results.map Prod.fst), (results.map Prod.snd).flatten))
  (stepped.map Prod.fst, (stepped.map Prod.snd).flatten)

/-! ## SelfLogger: core/self_logger.py -/

/-- The log directory of one object: the lines of the active log.tsv
(`none` when the file does not exist) and the rotated files, most recent
first.  A line is kept serialised; its byte size is its length. -/
structure LogDir where
  active : Option (List String)
  rotated : List (String × List String)
deriving DecidableEq

/-- Size in bytes of a TSV file: every stored line ends in a newline. -/
def fileSize (lines : List String) : Nat :=
  (lines.map (fun l => l.length + 1)).sum

/-- Default max_log_size of a SelfLogger: 10 MiB. -/
def defaultMaxLogSize : Nat := 10 * 1024 * 1024

/-- SelfLogger._rotate_if_needed: nothing when no active file; nothing
while its size is strictly below max_log_size; else rename the active
file out of the way (the next write will start a fresh one). -/
def rotateIfNeeded (d : LogDir) (max_log_size : Nat) (rotated_name : String) :
    LogDir :=
  match d.active with
  | none => d
  | some lines =>
    if fileSize lines < max_log_size then d
    else { active := none, rotated := (rotated_name, lines) :: d.rotated }

/-- SelfLogger.log: rotate if needed, then append the serialised entry,
writing the header line first when the active file is new. -/
def selfLoggerLog (d : LogDir) (max_log_size : Nat)
    (rotated_name header row : String) : LogDir :=
  let d2 := rotateIfNeeded d max_log_size rotated_name
  match d2.active with
  | none => { d2 with active := some [header, row] }
  | some lines => { d2 with active := some (lines ++ [row]) }

/-! ## Helper lemmas -/

/-- Updating a key makes the new binding visible under that key. -/
lemma lookupState_dictSet_self (store : StateDict) (key : String) (vt : String × ℚ) :
    lookupState (dictSet store key vt) key = some vt := by
  induction store with
  | nil => simp [dictSet, lookupState]
  | cons head tail ih =>
    obtain ⟨k, v, t⟩ := head
    by_cases h : k = key
    · simp [dictSet, lookupState, h]
    · simp [dictSet, lookupState, h, ih]

/-- Updating one key of the in-memory state leaves the others alone. -/
lemma memGet_memSet_ne (state : MemState) (key value k2 : String) (h : k2 ≠ key) :
    memGet (memSet state key value) k2 = memGet state k2 := by
  induction state with
  | nil => simp [memSet, memGet, Ne.symm h]
  | cons head tail ih =>
    obtain ⟨k, w⟩ := head
    by_cases hk : k = key
    · subst hk
      simp [memSet, memGet, Ne.symm h]
    · simp [memSet, memGet, hk, ih]

/-- Updating a key of the in-memory state stores its value. -/
lemma memGet_memSet_self (state : MemState) (key value : String) :
    memGet (memSet state key value) key = some value := by
  induction state with
  | nil => simp [memSet, memGet]
  | cons head tail ih =>
    obtain ⟨k, w⟩ := head
    by_cases hk : k = key
    · simp [memSet, memGet, hk]
    · simp [memSet, memGet, hk, ih]

/-- Each line of the file written by _save_state_with_timestamp pairs the
in-memory value of its key with the one shared timestamp. -/
lemma lookupState_saveStateWithTimestamp (state : MemState) (now : ℚ) (k : String) :
    lookupState (saveStateWithTimestamp state now) k =
      (memGet state k).map (fun v => (v, now)) := by
  induction state with
  | nil => simp [saveStateWithTimestamp, lookupState, memGet]
  | cons head tail ih =>
    obtain ⟨key, v⟩ := head
    by_cases hk : key = k
    · simp [saveStateWithTimestamp, lookupState, memGet, hk]
    · simp [saveStateWithTimestamp, lookupState, memGet, hk] at ih ⊢
      exact ih

/-! ## Claim C1: last-write-wins at the replicate ingress -/

/-- Claim C1: for a POST /cluster/replicate ingest addressing a key with a
stored entry, a strictly newer incoming timestamp is adopted (the stored
entry becomes the incoming value and timestamp), while an older or equal
incoming timestamp leaves the store unchanged and answers status ok with
rejected true. -/
theorem replicate_lww_per_key
    (store : StateDict) (oid key value src : String) (ts t0 : ℚ) (v0 : String)
    (hoid : oid ≠ "") (hkey : key ≠ "") (hts : ts ≠ 0) (hsrc : src ≠ "")
    (hstored : lookupState store key = some (v0, t0)) :
    (t0 < ts →
      replicatePOST store ⟨some oid, some key, some value, some ts, some src⟩ =
        (dictSet store key (value, ts), .okReplicated oid key ts) ∧
      lookupState (dictSet store key (value, ts)) key = some (value, ts)) ∧
    (ts ≤ t0 →
      replicatePOST store ⟨some oid, some key, some value, some ts, some src⟩ =
        (store, .okRejected oid key) ∧
      (ReplicateResult.okRejected oid key).statusField = "ok" ∧
      (ReplicateResult.okRejected oid key).rejectedFlag = true) := by
  constructor
  · intro hnew
    refine ⟨?_, lookupState_dictSet_self store key (value, ts)⟩
    simp [replicatePOST, replicateFieldsOk, truthyStr, truthyNum,
      hoid, hkey, hts, hsrc, hstored, not_le.mpr hnew]
  · intro hold
    refine ⟨?_, rfl, rfl⟩
    simp [replicatePOST, replicateFieldsOk, truthyStr, truthyNum,
      hoid, hkey, hts, hsrc, hstored, hold]

/-- Witness for C1: both branches at concrete inputs. -/
theorem replicate_lww_per_key_witness :
    (replicatePOST [("a", "x", 5)] ⟨some "o", some "a", some "y", some 7, some "s2"⟩ =
        (dictSet [("a", "x", 5)] "a" ("y", 7), .okReplicated "o" "a" 7) ∧
      lookupState (dictSet [("a", "x", 5)] "a" ("y", 7)) "a" = some ("y", 7)) ∧
    (replicatePOST [("a", "x", 5)] ⟨some "o", some "a", some "y", some 3, some "s2"⟩ =
        ([("a", "x", 5)], .okRejected "o" "a") ∧
      (ReplicateResult.okRejected "o" "a").statusField = "ok" ∧
      (ReplicateResult.okRejected "o" "a").rejectedFlag = true) := by
  constructor
  · exact (replicate_lww_per_key [("a", "x", 5)] "o" "a" "y" "s2" 7 5 "x"
      (by decide) (by decide) (by norm_num) (by decide) (by norm_num [lookupState])).1
      (by norm_num)
  · exact (replicate_lww_per_key [("a", "x", 5)] "o" "a" "y" "s2" 3 5 "x"
      (by decide) (by decide) (by norm_num) (by decide) (by norm_num [lookupState])).2
      (by norm_num)

/-! ## Claim C10: falsy-but-present fields at the replicate ingress -/

/-- Claim C10: a replicate body that carries all five fields but with
timestamp 0, or an empty key or object_id, fails the truthiness check:
the endpoint answers HTTP 400 Missing required fields and the stored
state is untouched. -/
theorem replicate_falsy_fields_rejected
    (store : StateDict) (r : ReplicateRequest)
    (_hpresent : r.object_id.isSome ∧ r.key.isSome ∧ r.value.isSome ∧
      r.timestamp.isSome ∧ r.source_station.isSome)
    (hfalsy : r.timestamp = some 0 ∨ r.key = some "" ∨ r.object_id = some "") :
    replicatePOST store r = (store, .missingFields) ∧
    ReplicateResult.missingFields.httpStatus = 400 := by
  have hok : replicateFieldsOk r = false := by
    rcases hfalsy with h | h | h <;>
      simp [replicateFieldsOk, h, truthyNum, truthyStr]
  exact ⟨by simp [replicatePOST, hok], rfl⟩

/-- Witness for C10: a fully-present body with timestamp 0 is rejected
with a 400 and the store is untouched. -/
theorem replicate_falsy_fields_rejected_witness :
    replicatePOST [("k", "old", 3)] ⟨some "obj", some "k", some "v", some 0, some "s1"⟩ =
      ([("k", "old", 3)], .missingFields) ∧
    ReplicateResult.missingFields.httpStatus = 400 :=
  replicate_falsy_fields_rejected [("k", "old", 3)]
    ⟨some "obj", some "k", some "v", some 0, some "s1"⟩
    (by simp) (by simp)

/-! ## Claim C5: what StateManager.set does to the other keys -/

/-- Counterexample to C5 as stated: with two keys on disk both stamped 0,
set of key a at now = 5 rewrites the line of the untouched key b to
timestamp 5 — the on-disk entry of b is NOT unchanged. -/
theorem state_set_rewrites_other_timestamps :
    lookupState [("a", "1", 0), ("b", "2", 0)] "b" = some ("2", 0) ∧
    lookupState (stateManagerSet (loadState [("a", "1", 0), ("b", "2", 0)]) "a" "9" 5).2 "b"
      = some ("2", 5) ∧
    ((5 : ℚ) ≠ (0 : ℚ)) := by
  exact ⟨rfl, rfl, by norm_num⟩

/-- Claim C5 amended: set(k, v) persists the entry for k with
timestamp = now and leaves the VALUE of every other key unchanged, but
the whole file is rewritten with the single timestamp now — the other
keys keep their values while their lines take the new timestamp. -/
theorem state_set_frame
    (state : MemState) (key value : String) (now : ℚ) (k2 : String)
    (hne : k2 ≠ key) :
    lookupState (stateManagerSet state key value now).2 key = some (value, now) ∧
    memGet (stateManagerSet state key value now).1 k2 = memGet state k2 ∧
    lookupState (stateManagerSet state key value now).2 k2 =
      (memGet state k2).map (fun v => (v, now)) := by
  refine ⟨?_, ?_, ?_⟩
  · simpa [stateManagerSet, lookupState_saveStateWithTimestamp]
      using congrArg (Option.map (fun v => (v, now))) (memGet_memSet_self state key value)
  · simpa [stateManagerSet] using memGet_memSet_ne state key value k2 hne
  · simpa [stateManagerSet, lookupState_saveStateWithTimestamp]
      using congrArg (Option.map (fun v => (v, now))) (memGet_memSet_ne state key value k2 hne)

/-- Witness for C5 amended: concrete two-key store. -/
theorem state_set_frame_witness :
    lookupState (stateManagerSet [("a", "1"), ("b", "2")] "a" "9" 5).2 "a" = some ("9", 5) ∧
    memGet (stateManagerSet [("a", "1"), ("b", "2")] "a" "9" 5).1 "b" =
      memGet [("a", "1"), ("b", "2")] "b" ∧
    lookupState (stateManagerSet [("a", "1"), ("b", "2")] "a" "9" 5).2 "b" =
      (memGet [("a", "1"), ("b", "2")] "b").map (fun v => (v, 5)) :=
  state_set_frame [("a", "1"), ("b", "2")] "a" "9" 5 "b" (by decide)

/-! ## Claim C3: dense version id sequence -/

/-- Folding max over an appended singleton. -/
lemma listMax_append_singleton (l : List Nat) (n : Nat) :
    listMax (l ++ [n]) = Nat.max (listMax l) n := by
  simp [listMax, List.foldl_append]

/-- Maximum of the ids 1..n is n (also for n = 0, where the fold base 0
is returned). -/
lemma listMax_range_one (n : Nat) : listMax (List.range' 1 n) = n := by
  induction n with
  | zero => rfl
  | succ m ih =>
    rw [List.range'_concat, listMax_append_singleton, ih]
    simp only [Nat.max_def]
    split <;> omega

/-- Ids of an appended save. -/
lemma versionIds_append (rows : VersionLog) (r : VersionRow) :
    versionIds (rows ++ [r]) = versionIds rows ++ [r.version_id] := by
  simp [versionIds]

/-- The next version id of a log whose ids are exactly 1..n is n + 1. -/
lemma nextVersionId_of_dense (rows : VersionLog) (n : Nat)
    (hids : versionIds rows = List.range' 1 n) :
    nextVersionId rows = n + 1 := by
  cases rows with
  | nil =>
    have hlen := congrArg List.length hids
    simp [versionIds] at hlen
    simp [nextVersionId]
    omega
  | cons r rest =>
    rw [show nextVersionId (r :: rest) = listMax (versionIds (r :: rest)) + 1 from rfl,
      hids, listMax_range_one]

/-- After n saves from an empty object the recorded ids are exactly 1..n. -/
lemma iterSave_ids (contents : Nat → String) (author message : String) (n : Nat) :
    versionIds (iterSave contents author message n) = List.range' 1 n := by
  induction n with
  | zero => rfl
  | succ m ih =>
    rw [iterSave, saveVersion, versionIds_append, ih,
      nextVersionId_of_dense _ m ih, List.range'_concat]
    simp [Nat.add_comm]

/-- Claim C3: save_version against a brand-new object returns 1, every
later save returns one more than the maximum recorded version_id, and
the ids recorded after n saves from empty form the dense sequence 1..n
(so the next save again returns n + 1). -/
theorem save_version_dense_ids
    (content author message : String) (contents : Nat → String)
    (rows : VersionLog) (n : Nat) (hne : rows ≠ []) :
    (saveVersion [] content author message).2 = 1 ∧
    (saveVersion rows content author message).2 = listMax (versionIds rows) + 1 ∧
    versionIds (iterSave contents author message n) = List.range' 1 n ∧
    (saveVersion (iterSave contents author message n) content author message).2 = n + 1 := by
  refine ⟨rfl, ?_, iterSave_ids contents author message n, ?_⟩
  · cases rows with
    | nil => exact absurd rfl hne
    | cons r rest => rfl
  · show nextVersionId (iterSave contents author message n) = n + 1
    exact nextVersionId_of_dense _ n (iterSave_ids contents author message n)

/-- Witness for C3 at n = 3 and a concrete nonempty log. -/
theorem save_version_dense_ids_witness :
    (saveVersion [] "c" "al" "msg").2 = 1 ∧
    (saveVersion [⟨1, "x", "al", "m1"⟩, ⟨2, "y", "al", "m2"⟩] "c" "al" "msg").2 =
      listMax (versionIds [⟨1, "x", "al", "m1"⟩, ⟨2, "y", "al", "m2"⟩]) + 1 ∧
    versionIds (iterSave (fun _ => "c") "al" "msg" 3) = List.range' 1 3 ∧
    (saveVersion (iterSave (fun _ => "c") "al" "msg" 3) "c" "al" "msg").2 = 3 + 1 :=
  save_version_dense_ids "c" "al" "msg" (fun _ => "c")
    [⟨1, "x", "al", "m1"⟩, ⟨2, "y", "al", "m2"⟩] 3 (by decide)

/-! ## Claim C2: the rollback action and the version id it reports -/

/-- Counterexample to C2 as stated: one version exists, rollback to
version 1 appends the new head 2 carrying the old content, but the HTTP
response reports version_id 1 — the requested version, not the fresh
head 2. -/
theorem rollback_reply_echoes_request :
    rollbackPOST [⟨1, "S1", "a", "m"⟩] (some 1) none none =
      ([⟨1, "S1", "a", "m"⟩, ⟨2, "S1", "api_user", "Rollback to version 1"⟩],
        .ok "ok" 1) ∧
    nextVersionId [⟨1, "S1", "a", "m"⟩] = 2 ∧ (1 : Nat) ≠ 2 := by
  refine ⟨by decide, by decide, by decide⟩

/-- Claim C2 amended: for a dense history 1..n and a target N within it,
the rollback action appends a new version n + 1 whose content equals the
content of version N, and VersionManager.rollback hands that fresh head
n + 1 back — but the HTTP response echoes the REQUESTED version_id N,
not the fresh head. -/
theorem rollback_creates_fresh_head
    (rows : VersionLog) (n to_version : Nat) (author message : Option String)
    (hids : versionIds rows = List.range' 1 n)
    (hlo : 1 ≤ to_version) (hhi : to_version ≤ n) :
    ∃ old : VersionRow,
      getVersion rows (some to_version) = some old ∧
      old.version_id = to_version ∧
      vmRollback rows to_version (author.getD "api_user")
          (message.getD ("Rollback to version " ++ toString to_version)) =
        .ok (rows ++ [⟨n + 1, old.content, author.getD "api_user",
          message.getD ("Rollback to version " ++ toString to_version)⟩], n + 1) ∧
      rollbackPOST rows (some to_version) author message =
        (rows ++ [⟨n + 1, old.content, author.getD "api_user",
          message.getD ("Rollback to version " ++ toString to_version)⟩],
          .ok "ok" to_version) := by
  have hmem : to_version ∈ versionIds rows := by
    rw [hids, List.mem_range'_1]
    omega
  obtain ⟨r, hr, hrid⟩ := List.mem_map.mp hmem
  have hfind : (rows.find? (fun row => row.version_id == to_version)).isSome := by
    rw [List.find?_isSome]
    exact ⟨r, hr, by simp [hrid]⟩
  obtain ⟨old, hold⟩ := Option.isSome_iff_exists.mp hfind
  have holdid : old.version_id = to_version := by
    simpa using List.find?_some hold
  cases rows with
  | nil => simp at hr
  | cons hd tl =>
    have hget : getVersion (hd :: tl) (some to_version) = some old := hold
    have hnext : nextVersionId (hd :: tl) = n + 1 :=
      nextVersionId_of_dense _ n hids
    have hvm : vmRollback (hd :: tl) to_version (author.getD "api_user")
        (message.getD ("Rollback to version " ++ toString to_version)) =
        .ok ((hd :: tl) ++ [⟨n + 1, old.content, author.getD "api_user",
          message.getD ("Rollback to version " ++ toString to_version)⟩], n + 1) := by
      simp only [vmRollback, hget, saveVersion]
      simp [hnext]
    have hvz : ¬ to_version = 0 := by omega
    refine ⟨old, hget, holdid, hvm, ?_⟩
    simp only [rollbackPOST]
    rw [if_neg hvz, hvm]

/-- Witness for C2 amended: one stored version, rollback to it. -/
theorem rollback_creates_fresh_head_witness :
    ∃ old : VersionRow,
      getVersion [⟨1, "S1", "a", "m"⟩] (some 1) = some old ∧
      old.version_id = 1 ∧
      vmRollback [⟨1, "S1", "a", "m"⟩] 1 ((none : Option String).getD "api_user")
          ((none : Option String).getD ("Rollback to version " ++ toString 1)) =
        .ok ([⟨1, "S1", "a", "m"⟩] ++ [⟨1 + 1, old.content,
          (none : Option String).getD "api_user",
          (none : Option String).getD ("Rollback to version " ++ toString 1)⟩], 1 + 1) ∧
      rollbackPOST [⟨1, "S1", "a", "m"⟩] (some 1) none none =
        ([⟨1, "S1", "a", "m"⟩] ++ [⟨1 + 1, old.content,
          (none : Option String).getD "api_user",
          (none : Option String).getD ("Rollback to version " ++ toString 1)⟩],
          .ok "ok" 1) :=
  rollback_creates_fresh_head [⟨1, "S1", "a", "m"⟩] 1 1 none none
    (by decide) (by decide) (by decide)

/-! ## Claim C6: dedup by entry_id at the append_log ingress -/

/-- Counterexample to C6 as stated: a log_entry that carries its own
entry_id key ("X") under top-level entry_id "E" is stored with the
merged column value "X", so the dedup scan for "E" never matches it.
Posting the identical payload twice appends twice, both times with
status ok, no second-post duplicate, and zero (not one) stored rows
carry the entry_id "E". -/
theorem append_log_merge_defeats_dedup :
    appendLogPOST [] (some "obj") (some "E")
        (some [("entry_id", "X"), ("level", "INFO")]) (some "s1") =
      ([⟨"X", [("entry_id", "X"), ("level", "INFO")]⟩], .appended "obj" "E") ∧
    appendLogPOST [⟨"X", [("entry_id", "X"), ("level", "INFO")]⟩] (some "obj") (some "E")
        (some [("entry_id", "X"), ("level", "INFO")]) (some "s1") =
      ([⟨"X", [("entry_id", "X"), ("level", "INFO")]⟩,
        ⟨"X", [("entry_id", "X"), ("level", "INFO")]⟩], .appended "obj" "E") ∧
    (AppendResult.appended "obj" "E").statusField = "ok" ∧
    (([(⟨"X", [("entry_id", "X"), ("level", "INFO")]⟩ : ReplLogRow),
        ⟨"X", [("entry_id", "X"), ("level", "INFO")]⟩]).filter
      (fun row : ReplLogRow => row.entry_id == "E")).length = 0 := by
  refine ⟨by decide, by decide, rfl, by decide⟩

/-- Claim C6 amended: the append_log ingress is idempotent by entry_id
for every payload whose log_entry does not override the key — when
log_entry carries no entry_id field of its own (or carries it equal to
the top-level one), a first post of an unseen entry_id appends the entry
and answers status ok, posting the identical payload again leaves the
log unchanged and answers status duplicate, and the log then holds
exactly one entry with that entry_id.  When log_entry carries a
different entry_id, the dict merge overrides the stored key and the same
payload appends on every post. -/
theorem append_log_dedup_by_entry_id
    (log : List ReplLogRow) (oid eid src : String) (payload : List (String × String))
    (hoid : oid ≠ "") (heid : eid ≠ "") (hpay : payload ≠ []) (hsrc : src ≠ "")
    (hkey : payload.lookup "entry_id" = none ∨ payload.lookup "entry_id" = some eid)
    (hfresh : hasEntry log eid = false) :
    appendLogPOST log (some oid) (some eid) (some payload) (some src) =
      (log ++ [⟨eid, payload⟩], .appended oid eid) ∧
    (AppendResult.appended oid eid).statusField = "ok" ∧
    appendLogPOST (log ++ [⟨eid, payload⟩]) (some oid) (some eid) (some payload) (some src) =
      (log ++ [⟨eid, payload⟩], .duplicate oid eid) ∧
    (AppendResult.duplicate oid eid).statusField = "duplicate" ∧
    ((log ++ [(⟨eid, payload⟩ : ReplLogRow)]).filter
      (fun row : ReplLogRow => row.entry_id == eid)).length = 1 := by
  have hsid : storedEntryId eid payload = eid := by
    rcases hkey with h | h <;> simp [storedEntryId, h]
  have hdup : hasEntry (log ++ [⟨eid, payload⟩]) eid = true := by
    simp [hasEntry]
  have hnone : List.filter (fun row : ReplLogRow => row.entry_id == eid) log = [] := by
    have hfresh2 : (log.any fun row : ReplLogRow => row.entry_id == eid) = false := hfresh
    rw [List.filter_eq_nil_iff]
    intro row hrow
    have hall := List.any_eq_false.mp hfresh2 row hrow
    simpa using hall
  refine ⟨?_, rfl, ?_, rfl, ?_⟩
  · simp [appendLogPOST, truthyStr, hoid, heid, hsrc, hpay, hfresh, hsid]
  · simp [appendLogPOST, truthyStr, hoid, heid, hsrc, hpay, hdup]
  · simp [List.filter_append, hnone]

/-- Witness for C6 at a concrete log and entry. -/
theorem append_log_dedup_by_entry_id_witness :
    appendLogPOST [⟨"e0", [("level", "INFO")]⟩] (some "obj") (some "e1")
        (some [("level", "WARN")]) (some "s1") =
      ([⟨"e0", [("level", "INFO")]⟩] ++ [⟨"e1", [("level", "WARN")]⟩], .appended "obj" "e1") ∧
    (AppendResult.appended "obj" "e1").statusField = "ok" ∧
    appendLogPOST ([⟨"e0", [("level", "INFO")]⟩] ++ [⟨"e1", [("level", "WARN")]⟩])
        (some "obj") (some "e1") (some [("level", "WARN")]) (some "s1") =
      ([⟨"e0", [("level", "INFO")]⟩] ++ [⟨"e1", [("level", "WARN")]⟩], .duplicate "obj" "e1") ∧
    (AppendResult.duplicate "obj" "e1").statusField = "duplicate" ∧
    (([(⟨"e0", [("level", "INFO")]⟩ : ReplLogRow)] ++ [(⟨"e1", [("level", "WARN")]⟩ : ReplLogRow)]).filter
      (fun row : ReplLogRow => row.entry_id == "e1")).length = 1 :=
  append_log_dedup_by_entry_id [⟨"e0", [("level", "INFO")]⟩] "obj" "e1" "s1"
    [("level", "WARN")] (by decide) (by decide) (by decide) (by decide)
    (by decide) (by decide)

/-! ## Claim C7: how the stations listing reports the master itself -/

/-- Counterexample to C7 as stated: the registry carries the row of the
master with a stale heartbeat (100 - 0 is not below the 30 s window);
the listing keeps that row with is_active false instead of overriding it
to true. -/
theorem stations_master_stale_row_not_overridden :
    stationsGET "station1" [⟨"station1", "localhost", 8001, 0, none⟩] 100 =
      [⟨"station1", "localhost", 8001, 0, false, "http://localhost:8001", none⟩] ∧
    ¬ ((100 : ℚ) - 0 < livenessWindow) := by
  constructor
  · simp only [stationsGET, entryOfRow, List.map, List.any, masterSelfEntry]
    norm_num [livenessWindow]
    decide
  · norm_num [livenessWindow]

/-- Any over a mapped list tests the composite predicate. -/
lemma list_any_map_fun {α β : Type} (f : α → β) (l : List α) (p : β → Bool) :
    (l.map f).any p = l.any (fun a => p (f a)) := by
  induction l with
  | nil => rfl
  | cons a t ih => simp [ih]

/-- Claim C7 amended: the master lists itself with is_active true when no
registry row carries its id; every row that IS in the registry — the
master included — is reported with is_active computed from its own
heartbeat, so a stale master row is listed as inactive. -/
theorem stations_master_self_insert
    (registry : List RegistryRow) (now : ℚ)
    (habsent : (registry.any (fun r => r.station_id == "station1")) = false) :
    stationsGET "station1" registry now =
      masterSelfEntry now :: registry.map (entryOfRow now) ∧
    (masterSelfEntry now).is_active = true ∧
    ∀ r ∈ registry, (entryOfRow now r).is_active =
      decide (now - r.last_heartbeat < livenessWindow) := by
  refine ⟨?_, rfl, fun r _ => rfl⟩
  have hmap : ((registry.map (entryOfRow now)).any
      (fun s => s.station_id == "station1")) = false := by
    rw [list_any_map_fun]
    simpa [entryOfRow] using habsent
  simp [stationsGET, hmap]

/-- Witness for C7 amended: a worker-only registry. -/
theorem stations_master_self_insert_witness :
    stationsGET "station1" [⟨"station2", "h2", 8002, 95, none⟩] 100 =
      masterSelfEntry 100 :: [⟨"station2", "h2", 8002, 95, none⟩].map (entryOfRow 100) ∧
    (masterSelfEntry 100).is_active = true ∧
    ∀ r ∈ [(⟨"station2", "h2", 8002, 95, none⟩ : RegistryRow)],
      (entryOfRow 100 r).is_active = decide ((100 : ℚ) - r.last_heartbeat < livenessWindow) :=
  stations_master_self_insert [⟨"station2", "h2", 8002, 95, none⟩] 100 (by decide)

/-! ## Claim C4: load-score routing -/

/-- Once the best-station scan holds a candidate it never drops it. -/
lemma foldl_bestStep_from_some (l : List Station) (acc : Station × ℚ) :
    ∃ p, l.foldl bestStep (some acc) = some p := by
  induction l generalizing acc with
  | nil => exact ⟨acc, rfl⟩
  | cons a t ih =>
    by_cases h : stationScore a < acc.2
    · simpa [bestStep, h] using ih (a, stationScore a)
    · simpa [bestStep, h] using ih acc

/-- The scan keeps the strict minimum: its result is the accumulator or a
visited station paired with its own score, and the kept score is a lower
bound on the accumulator and on every visited score. -/
lemma foldl_bestStep_min (l : List Station) (acc : Station × ℚ) (b : Station) (bs : ℚ)
    (hfold : l.foldl bestStep (some acc) = some (b, bs)) :
    ((b, bs) = acc ∨ (b ∈ l ∧ bs = stationScore b)) ∧ bs ≤ acc.2 ∧
      ∀ r ∈ l, bs ≤ stationScore r := by
  induction l generalizing acc with
  | nil =>
    simp at hfold
    subst hfold
    exact ⟨Or.inl rfl, le_refl bs, by simp⟩
  | cons a t ih =>
    by_cases h : stationScore a < acc.2
    · have hstep : (a :: t).foldl bestStep (some acc) =
          t.foldl bestStep (some (a, stationScore a)) := by
        simp [bestStep, h]
      obtain ⟨hwhere, hle, hall⟩ := ih (a, stationScore a) (hstep ▸ hfold)
      have hle2 : bs ≤ stationScore a := hle
      refine ⟨?_, le_trans hle2 (le_of_lt h), ?_⟩
      · rcases hwhere with heq | hmem
        · have hb : b = a := congrArg Prod.fst heq
          have hbs : bs = stationScore a := congrArg Prod.snd heq
          refine Or.inr ⟨?_, ?_⟩
          · rw [hb]; exact List.mem_cons_self a t
          · rw [hbs, hb]
        · exact Or.inr ⟨List.mem_cons_of_mem a hmem.1, hmem.2⟩
      · intro r hr
        rcases List.mem_cons.mp hr with hra | hrt
        · exact hra ▸ hle2
        · exact hall r hrt
    · have hstep : (a :: t).foldl bestStep (some acc) =
          t.foldl bestStep (some acc) := by
        simp [bestStep, h]
      obtain ⟨hwhere, hle, hall⟩ := ih acc (hstep ▸ hfold)
      refine ⟨?_, hle, ?_⟩
      · rcases hwhere with heq | hmem
        · exact Or.inl heq
        · exact Or.inr ⟨List.mem_cons_of_mem a hmem.1, hmem.2⟩
      · intro r hr
        rcases List.mem_cons.mp hr with hra | hrt
        · exact hra ▸ le_trans hle (not_lt.mp h)
        · exact hall r hrt

/-- The minimum scan over the non-local stations: none exactly when there
are no non-local stations; a result is a non-local station carrying its
own score, minimal among all non-local scores. -/
lemma findMinRemote_min (local_station : String) (stations : List Station)
    (b : Station) (bs : ℚ)
    (hmin : findMinRemote local_station stations = some (b, bs)) :
    b ∈ remoteStations local_station stations ∧ bs = stationScore b ∧
      ∀ r ∈ remoteStations local_station stations, bs ≤ stationScore r := by
  unfold findMinRemote at hmin
  cases hrs : remoteStations local_station stations with
  | nil => rw [hrs] at hmin; simp at hmin
  | cons a t =>
    rw [hrs] at hmin
    have hstep : (a :: t).foldl bestStep none =
        t.foldl bestStep (some (a, stationScore a)) := by
      simp [bestStep]
    obtain ⟨hwhere, hle, hall⟩ := foldl_bestStep_min t (a, stationScore a) b bs
      (hstep ▸ hmin)
    have hle2 : bs ≤ stationScore a := hle
    constructor
    · rcases hwhere with heq | hmem
      · have hb : b = a := congrArg Prod.fst heq
        rw [hb]; exact List.mem_cons_self a t
      · exact List.mem_cons_of_mem a hmem.1
    constructor
    · rcases hwhere with heq | hmem
      · have hb : b = a := congrArg Prod.fst heq
        have hbs : bs = stationScore a := congrArg Prod.snd heq
        rw [hbs, hb]
      · exact hmem.2
    · intro r hr
      rcases List.mem_cons.mp hr with hra | hrt
      · exact hra ▸ hle2
      · exact hall r hrt

/-- The scan yields none exactly on an empty remote list. -/
lemma findMinRemote_eq_none (local_station : String) (stations : List Station) :
    findMinRemote local_station stations = none ↔
      remoteStations local_station stations = [] := by
  unfold findMinRemote
  cases hrs : remoteStations local_station stations with
  | nil => simp
  | cons a t =>
    have hstep : (a :: t).foldl bestStep none =
        t.foldl bestStep (some (a, stationScore a)) := by
      simp [bestStep]
    obtain ⟨p, hp⟩ := foldl_bestStep_from_some t (a, stationScore a)
    simp [hstep, hp]

/-- Claim C4 amended: a load-routed execution request forwards to a
minimum-score live non-local station exactly when the active list holds
more than one station, a non-local station is listed at all, and the
local score beats the threshold (more than 20 points above the best
remote score, or above 70); with at most one listed station the code
serves locally even when a better remote station is listed.  In
particular, when the local score is within 20 of every remote score and
at most 70, the request is served locally. -/
theorem find_best_station_routing
    (local_station : String) (stations : List Station) :
    (∀ b, findBestStation local_station stations = some b →
        1 < stations.length ∧
        b ∈ remoteStations local_station stations ∧
        (∀ r ∈ remoteStations local_station stations,
          stationScore b ≤ stationScore r) ∧
        (localLoadScore local_station stations - stationScore b > 20 ∨
          localLoadScore local_station stations > 70)) ∧
    (findBestStation local_station stations = none ↔
        stations.length ≤ 1 ∨ remoteStations local_station stations = [] ∨
        (localLoadScore local_station stations ≤ 70 ∧
          ∀ r ∈ remoteStations local_station stations,
            localLoadScore local_station stations - stationScore r ≤ 20)) := by
  by_cases hlen : stations.length ≤ 1
  · constructor
    · intro b hb
      rw [findBestStation, if_pos hlen] at hb
      cases hb
    · rw [findBestStation, if_pos hlen]
      simp [hlen]
  · cases hmin : findMinRemote local_station stations with
    | none =>
      have hrs := (findMinRemote_eq_none local_station stations).mp hmin
      constructor
      · intro b hb
        rw [findBestStation, if_neg hlen, hmin] at hb
        cases hb
      · rw [findBestStation, if_neg hlen, hmin]
        simp [hrs]
    | some p =>
      obtain ⟨bst, bsc⟩ := p
      obtain ⟨hbmem, hbscore, hbmin⟩ := findMinRemote_min local_station stations bst bsc hmin
      have hfb : findBestStation local_station stations =
          if localLoadScore local_station stations - bsc > 20 ∨
              localLoadScore local_station stations > 70
          then some bst else none := by
        rw [findBestStation, if_neg hlen, hmin]
      by_cases hc : localLoadScore local_station stations - bsc > 20 ∨
          localLoadScore local_station stations > 70
      · constructor
        · intro b hb
          rw [hfb, if_pos hc] at hb
          obtain rfl : bst = b := Option.some.inj hb
          exact ⟨lt_of_not_le hlen, hbmem, fun r hr => hbscore ▸ hbmin r hr,
            hbscore ▸ hc⟩
        · rw [hfb, if_pos hc]
          simp only [reduceCtorEq, false_iff]
          push_neg
          refine ⟨lt_of_not_le hlen, List.ne_nil_of_mem hbmem, fun hls => ?_⟩
          rcases hc with h20 | h70
          · exact ⟨bst, hbmem, by rw [← hbscore]; linarith⟩
          · exact absurd h70 (not_lt.mpr hls)
      · constructor
        · intro b hb
          rw [hfb, if_neg hc] at hb
          cases hb
        · rw [hfb, if_neg hc]
          push_neg at hc
          simp only [true_iff]
          refine Or.inr (Or.inr ⟨hc.2, fun r hr => ?_⟩)
          have := hbmin r hr
          linarith [hc.1]

/-- Counterexample to C4 as stated: seen from a worker whose own row is
absent, a single-row active list holds one live non-local idle station
(score 0, local default 50, 50 - 0 > 20), yet the code serves locally
because the list length is not above 1. -/
theorem find_best_station_single_entry :
    remoteStations "station2" [⟨"station3", some ⟨some 0, some 0⟩⟩] =
      [⟨"station3", some ⟨some 0, some 0⟩⟩] ∧
    stationScore ⟨"station3", some ⟨some 0, some 0⟩⟩ = 0 ∧
    localLoadScore "station2" [⟨"station3", some ⟨some 0, some 0⟩⟩] = 50 ∧
    ((50 : ℚ) - 0 > 20) ∧
    findBestStation "station2" [⟨"station3", some ⟨some 0, some 0⟩⟩] = none := by
  refine ⟨by decide, ?_, rfl, by norm_num, by norm_num [findBestStation]⟩
  norm_num [stationScore, calculateLoadScore]

/-- Witness for C4 amended: a loaded master (score 90) next to an idle
worker (score 10) routes to the worker; the theorem applied at that
input with its hypothesis evaluated. -/
theorem find_best_station_routing_witness :
    1 < ([⟨"station1", some ⟨some 90, some 90⟩⟩,
      ⟨"station2", some ⟨some 10, some 10⟩⟩] : List Station).length ∧
    (⟨"station2", some ⟨some 10, some 10⟩⟩ : Station) ∈ remoteStations "station1"
      [⟨"station1", some ⟨some 90, some 90⟩⟩, ⟨"station2", some ⟨some 10, some 10⟩⟩] ∧
    (∀ r ∈ remoteStations "station1"
        [⟨"station1", some ⟨some 90, some 90⟩⟩, ⟨"station2", some ⟨some 10, some 10⟩⟩],
      stationScore ⟨"station2", some ⟨some 10, some 10⟩⟩ ≤ stationScore r) ∧
    (localLoadScore "station1"
        [⟨"station1", some ⟨some 90, some 90⟩⟩, ⟨"station2", some ⟨some 10, some 10⟩⟩] -
        stationScore ⟨"station2", some ⟨some 10, some 10⟩⟩ > 20 ∨
      localLoadScore "station1"
        [⟨"station1", some ⟨some 90, some 90⟩⟩, ⟨"station2", some ⟨some 10, some 10⟩⟩] > 70) :=
  (find_best_station_routing "station1"
    [⟨"station1", some ⟨some 90, some 90⟩⟩, ⟨"station2", some ⟨some 10, some 10⟩⟩]).1
    ⟨"station2", some ⟨some 10, some 10⟩⟩
    (by
      have h21 : ("station2" != "station1") = true := rfl
      have h11 : ("station1" != "station1") = false := rfl
      have hq : ("station1" == "station1") = true := rfl
      simp only [findBestStation, findMinRemote, remoteStations, List.filter, h21, h11, hq,
        bestStep, localLoadScore, List.find?, stationScore, calculateLoadScore, List.foldl,
        List.length, Option.bind, Option.getD]
      norm_num)

/-! ## Claim C8: errors inside a scheduled invocation -/

/-- Handler behavior of a two-object deployment where the tick method of
obj1 raises and the tock method of obj2 returns normally. -/
def demoSchedBehavior : String → String → HandlerOutcome :=
  fun object_id method =>
    if object_id = "obj1" && method = "tick" then .raises "boom" else .ok

/-- Claim C8, checked against the code at the failing input: both
schedules are due, the tick handler of obj1 raises, the sweep still
returns (the loop survives) and the tock schedule of obj2 advances
normally — but the list of lines emitted through the object logger is
EMPTY: the except block of _scheduler_loop is a bare pass, so the error
is swallowed without any ERROR-level report, contradicting the claim and
the inline comment Log error but do not crash scheduler. -/
theorem scheduler_swallows_without_logging :
    schedulerSweep demoSchedBehavior
        [("obj1", [⟨"tick", 5, 0⟩]), ("obj2", [⟨"tock", 7, 0⟩])] 10 =
      ([("obj1", [⟨"tick", 5, 0⟩]), ("obj2", [⟨"tock", 7, 17⟩])], []) := by
  have h1 : demoSchedBehavior "obj1" "tick" = .raises "boom" := rfl
  have h2 : demoSchedBehavior "obj2" "tock" = .ok := rfl
  simp only [schedulerSweep, List.map, runSchedEntry, h1, h2]
  norm_num

/-! ## Claim C9: log rotation boundary -/

/-- Claim C9: a write finding the active file at exactly
max_log_size - 1 bytes does not rotate and appends in place; a write
finding it one byte larger (exactly max_log_size) rotates — the active
file is renamed aside and the write creates a fresh active file starting
with the header row.  The default max_log_size is 10 MiB. -/
theorem log_rotation_boundary
    (lines : List String) (rotated : List (String × List String))
    (max_log_size : Nat) (rotated_name header row : String)
    (hpos : 1 ≤ max_log_size) :
    (fileSize lines = max_log_size - 1 →
      selfLoggerLog ⟨some lines, rotated⟩ max_log_size rotated_name header row =
        ⟨some (lines ++ [row]), rotated⟩) ∧
    (fileSize lines = max_log_size →
      selfLoggerLog ⟨some lines, rotated⟩ max_log_size rotated_name header row =
        ⟨some [header, row], (rotated_name, lines) :: rotated⟩) ∧
    defaultMaxLogSize = 10 * 1024 * 1024 := by
  refine ⟨?_, ?_, rfl⟩
  · intro hsz
    have hlt : fileSize lines < max_log_size := by omega
    simp [selfLoggerLog, rotateIfNeeded, hlt]
  · intro hsz
    have hge : ¬ fileSize lines < max_log_size := by omega
    simp [selfLoggerLog, rotateIfNeeded, hge]

/-- Witness for C9: a four-byte active file against max_log_size 5 (no
rotation at 4 = 5 - 1), then a five-byte one (rotation at 5). -/
theorem log_rotation_boundary_witness :
    selfLoggerLog ⟨some ["aaa"], []⟩ 5 "log-t1" "hdr" "row" =
      ⟨some (["aaa"] ++ ["row"]), []⟩ ∧
    selfLoggerLog ⟨some ["aaaa"], []⟩ 5 "log-t1" "hdr" "row" =
      ⟨some ["hdr", "row"], [("log-t1", ["aaaa"])]⟩ :=
  ⟨(log_rotation_boundary ["aaa"] [] 5 "log-t1" "hdr" "row" (by decide)).1 (by decide),
    (log_rotation_boundary ["aaaa"] [] 5 "log-t1" "hdr" "row" (by decide)).2.1 (by decide)⟩
